import Mathlib

/-!
Verification of the hiring-assistant vector-sync / hybrid-search layer
(`models/qdrant_mixin.py`, `models/generate_embeddings.py`,
`models/schemas.py`) against its natural-language specification.

The Python code is shallowly embedded: Python values that can appear as
entity attributes or payload entries become the inductive `PyVal`;
dictionaries become association lists where a later binding overrides an
earlier one; remote calls (Qdrant client, embedding providers) become
explicit outcome parameters; functions that can raise return `Except`.
-/

namespace HiringAssistant

/-- Python-level values appearing as entity attributes / payload entries.
`vRef i` models a referenced document exposing a string id `i` (the shape
of every `org` ReferenceField in `models/schemas.py`). -/
inductive PyVal where
  | vNone
  | vStr (s : String)
  | vStrList (l : List String)
  | vNum (q : ℚ)
  | vRef (id : String)
deriving DecidableEq

/-- Python `dict` lookup with default `None` (`d.get(k)`): association list
where the LAST binding of a key wins, as later `d[k] = v` assignments
override earlier ones. -/
def payloadGet (p : List (String × PyVal)) (k : String) : PyVal :=
  match p.reverse.find? (fun kv => kv.1 == k) with
  | some kv => kv.2
  | none => .vNone

/-- Python `v != s` for a payload value against a string: only an equal
string compares equal; `None`, lists, numbers and objects are all `!=` any
string. -/
def pyNeStr (v : PyVal) (s : String) : Bool :=
  match v with
  | .vStr t => t != s
  | _ => true

/-- Python truthiness of a payload value (`if not x`). -/
def pyTruthy : PyVal → Bool
  | .vNone => false
  | .vStr s => s != ""
  | .vStrList l => !l.isEmpty
  | .vNum q => q != 0
  | .vRef _ => true

/-- Embeds `QdrantMixin._passes_filters`: `if org_id and payload.get("org") != org_id:
return False; return True`.  `org_id` is `Option String`; Python truthiness of
the string means `some ""` is falsy and disables the filter. -/
def _passes_filters (payload : List (String × PyVal)) (org_id : Option String) : Bool :=
  match org_id with
  | none => true
  | some o => if o != "" && pyNeStr (payloadGet payload "org") o then false else true

/-- An entity carrying the mixin: schema-level configuration
(`qdrant_collection`, `payload_fields`, the embed field lists, declared
field keys, `meta["collection"]`, class name) together with its attribute
map.  `getattr(self, f, None)` is lookup in `attrs` defaulting to `None`. -/
structure Entity where
  id : String
  attrs : List (String × PyVal)
  payload_fields : List String
  fieldKeys : List String
  qdrant_collection : Option String
  metaCollection : Option String
  className : String
  dense_embed_fields : List String
  sparse_embed_fields : List String
deriving DecidableEq

/-- Python `getattr(self, f, None)` on an entity. -/
def getattrE (e : Entity) (f : String) : PyVal :=
  match e.attrs.reverse.find? (fun kv => kv.1 == f) with
  | some kv => kv.2
  | none => .vNone

/-- Embeds `QdrantMixin._point_id`: `str(self.id)` (ids are already modelled as
strings). -/
def _point_id (e : Entity) : String :=
  e.id

/-- Embeds `QdrantMixin._collection_name_for_class`:
`getattr(cls, "qdrant_collection", None) or meta.get("collection",
cls.__name__.lower())` — Python `or` takes the left operand when truthy. -/
def _collection_name_for_class (e : Entity) : String :=
  if e.qdrant_collection.getD "" != "" then e.qdrant_collection.getD ""
  else match e.metaCollection with
    | some m => m
    | none => e.className.toLower

/-- Python `hasattr(self, "org") and getattr(self, "org", None) is not None`:
returns the org attribute when it is present and not `None`. -/
def orgAttr (e : Entity) : Option PyVal :=
  match e.attrs.reverse.find? (fun kv => kv.1 == "org") with
  | some kv => if kv.2 ≠ .vNone then some kv.2 else none
  | none => none

/-- Python `str(getattr(self, "org").id)` — in the schemas `org` is always a
ReferenceField, i.e. a `vRef`; other shapes are given an inert string. -/
def pyIdStr : PyVal → String
  | .vRef i => i
  | _ => ""

/-- Embeds `QdrantMixin._collection_name`: instance-level `qdrant_collection` when
truthy, else the per-org name `base + "__org__" + str(org.id)` when an
`org` attribute is present and not None, else the class-level name. -/
def _collection_name (e : Entity) : String :=
  if e.qdrant_collection.getD "" != "" then e.qdrant_collection.getD ""
  else match orgAttr e with
    | some v => _collection_name_for_class e ++ "__org__" ++ pyIdStr v
    | none => _collection_name_for_class e

/-- Conversion applied by `_build_payload` to each field value:
`None` stays `None`, a referenced document becomes its id string
(`hasattr(v, "id")`), everything else is stored verbatim. -/
def payloadConvert : PyVal → PyVal
  | .vNone => .vNone
  | .vRef i => .vStr i
  | v => v

/-- Embeds `QdrantMixin._build_payload`: copies the `payload_fields` (or, when
that list is empty, all declared fields except `id`) through
`payloadConvert`, then always sets `_id` and `_collection` last. -/
def _build_payload (e : Entity) : List (String × PyVal) :=
  let fields := if e.payload_fields.isEmpty
    then e.fieldKeys.filter (fun k => k != "id")
    else e.payload_fields
  (fields.map (fun f => (f, payloadConvert (getattrE e f))))
    ++ [("_id", .vStr (_point_id e)), ("_collection", .vStr (_collection_name_for_class e))]

/-- The list `Candidate.payload_fields` from `models/schemas.py` (note: `org` is not
in the list). -/
def candidatePayloadFields : List String :=
  ["email", "name", "phone", "resume_link", "location", "current_company",
   "experience_years", "skills", "status"]

/-- The spec scenario candidate `c1` of organization `o1`
(`{id:"c1", org:"o1", skills:["go","rust"], resume_text:"10 years systems
programming"}`) instantiated as a `Candidate` per `models/schemas.py`. -/
def c1Candidate : Entity :=
  { id := "c1"
  , attrs :=
      [ ("org", .vRef "o1")
      , ("skills", .vStrList ["go", "rust"])
      , ("resume_ocr_content", .vStr "10 years systems programming")
      , ("status", .vStr "active") ]
  , payload_fields := candidatePayloadFields
  , fieldKeys :=
      ["id", "org", "email", "name", "phone", "resume_link", "resume_ocr_content",
       "location", "current_company", "experience_years", "skills", "status",
       "created_at", "updated_at"]
  , qdrant_collection := some "ha_candidates"
  , metaCollection := some "candidates"
  , className := "Candidate"
  , dense_embed_fields := ["resume_ocr_content"]
  , sparse_embed_fields := ["skills"] }

/-- Outcome of one attempt of a remote call: a value, an exception in the
`_TRANSIENT` tuple (`ResponseHandlingException`, `ConnectionError`,
`OSError`), or any other exception. -/
inductive CallRes (α : Type) where
  | ok (v : α)
  | transient
  | fatal
deriving DecidableEq

/-- How a `_with_retries` invocation ends: the wrapped call returned a
value, the final transient error was re-raised, or a non-transient error
propagated. -/
inductive RetryOutcome (α : Type) where
  | success (v : α)
  | raisedTransient
  | raisedFatal
deriving DecidableEq

/-- Trace of a `_with_retries` invocation: its outcome, how many times the
wrapped call was attempted, and the `time.sleep` durations in order. -/
structure RetryTrace (α : Type) where
  outcome : RetryOutcome α
  attempts : ℕ
  sleeps : List ℚ
deriving DecidableEq

/-- The `for attempt in range(1, max_tries + 1)` loop of `_with_retries`.
`k` counts previously made attempts (so the current attempt is `k + 1`),
`fuel` is the number of attempts still allowed.  `fn n` is the outcome of
the n-th call of the wrapped function (1-based); `rnd n` models the
`random()` draw of the n-th attempt.  The sleep after a non-final
transient attempt is `base_delay * 2 ** (attempt - 1) * (0.7 + 0.6 *
random())`. -/
def retryLoop {α : Type} (fn : ℕ → CallRes α) (rnd : ℕ → ℚ) (base : ℚ) :
    ℕ → ℕ → RetryTrace α
  | _, 0 => ⟨.raisedTransient, 0, []⟩
  | k, fuel + 1 =>
    match fn (k + 1) with
    | .ok v => ⟨.success v, 1, []⟩
    | .fatal => ⟨.raisedFatal, 1, []⟩
    | .transient =>
      if fuel = 0 then ⟨.raisedTransient, 1, []⟩
      else
        let r := retryLoop fn rnd base (k + 1) fuel
        ⟨r.outcome, r.attempts + 1, (base * 2 ^ k * (7/10 + 3/5 * rnd (k + 1))) :: r.sleeps⟩

/-- Embeds `_with_retries(fn, max_tries=5, base_delay=1.0)` as called throughout
the mixin (all call sites use the defaults). -/
def _with_retries {α : Type} (fn : ℕ → CallRes α) (rnd : ℕ → ℚ) : RetryTrace α :=
  retryLoop fn rnd 1 0 5

/-- Invariant of the retry loop: attempt bounds, the sleep durations, that
only transient failures are retried, and how each outcome relates to the
last call made.  `k` past attempts have been made, `fuel` remain. -/
def retryInv {α : Type} (fn : ℕ → CallRes α) (rnd : ℕ → ℚ) (base : ℚ)
    (k fuel : ℕ) (r : RetryTrace α) : Prop :=
  (1 ≤ r.attempts ∧ r.attempts ≤ fuel) ∧
  r.sleeps.length = r.attempts - 1 ∧
  (∀ i, (hi : i < r.sleeps.length) →
    r.sleeps.get ⟨i, hi⟩ = base * 2 ^ (k + i) * (7/10 + 3/5 * rnd (k + i + 1))) ∧
  (∀ j, j + 1 < r.attempts → fn (k + j + 1) = .transient) ∧
  (∀ v, r.outcome = .success v → fn (k + r.attempts) = .ok v) ∧
  (r.outcome = .raisedFatal → fn (k + r.attempts) = .fatal) ∧
  (r.outcome = .raisedTransient → fn (k + r.attempts) = .transient ∧ r.attempts = fuel)

/-- Python `str(v)` for the embedding-text builders (`parts.append(str(v))`).
Only values that pass the `elif v:` truthiness check reach this. -/
def pyStrOf : PyVal → String
  | .vNone => "None"
  | .vStr s => s
  | .vStrList l => String.intercalate " " l
  | .vNum q => toString q
  | .vRef i => "<ref " ++ i ++ ">"

/-- The loop body shared by `_dense_text_for_embedding` and
`_sparse_text_for_embedding`: a list-valued field contributes
`" ".join(map(str, v))` (even when empty), any other value contributes
`str(v)` when truthy and is skipped otherwise. -/
def embedParts (e : Entity) (fields : List String) : List String :=
  fields.foldr
    (fun f acc =>
      match getattrE e f with
      | .vStrList l => (String.intercalate " " l) :: acc
      | v => if pyTruthy v then pyStrOf v :: acc else acc)
    []

/-- Python `str.strip()`: drop whitespace from both ends (written
structurally over the character list so it reduces definitionally). -/
def pyStrip (s : String) : String :=
  String.mk (((s.data.dropWhile Char.isWhitespace).reverse.dropWhile
    Char.isWhitespace).reverse)

/-- Embeds `QdrantMixin._dense_text_for_embedding`: `" ".join(parts).strip()` over
the `dense_embed_fields`. -/
def _dense_text_for_embedding (e : Entity) : String :=
  pyStrip (String.intercalate " " (embedParts e e.dense_embed_fields))

/-- Embeds `QdrantMixin._sparse_text_for_embedding`: same over the
`sparse_embed_fields`. -/
def _sparse_text_for_embedding (e : Entity) : String :=
  pyStrip (String.intercalate " " (embedParts e e.sparse_embed_fields))

/-- What `embed_gen.generate_dense_vector(text)` produced, as observed by
`_build_dense_vector`: it raised, returned a non-list value, or returned a
list of floats (possibly empty — the provider returns `[]` on error). -/
inductive DenseEmbedRes where
  | raised
  | nonList
  | vec (l : List ℝ)

/-- A `qdrant_client` SparseVector. -/
structure SparseVec where
  indices : List ℤ
  values : List ℝ

/-- What `embed_gen.generate_sparse_vector(text)` produced, as observed by
`_build_sparse_vector`: it raised, returned a `qm.SparseVector`, returned
a dict `{index: value}` (possibly empty — the provider returns `{}` on
error or empty input), or returned some unsupported value. -/
inductive SparseEmbedRes where
  | raised
  | sv (v : SparseVec)
  | dict (pairs : List (ℤ × ℝ))
  | other

/-- Embeds `QdrantMixin._build_dense_vector`: `None` on empty text, on a raised
exception, or on a non-list result; otherwise the returned list (the
`[float(x) for x in vec]` sanitisation is the identity here). -/
def _build_dense_vector (e : Entity) (emb : DenseEmbedRes) : Option (List ℝ) :=
  if _dense_text_for_embedding e = "" then none
  else match emb with
    | .raised => none
    | .nonList => none
    | .vec l => some l

/-- Embeds `QdrantMixin._build_sparse_vector`: `None` on empty text, raised
exception or unsupported type; a `SparseVector` passes through; a dict is
converted key-list / value-list. -/
def _build_sparse_vector (e : Entity) (emb : SparseEmbedRes) : Option SparseVec :=
  if _sparse_text_for_embedding e = "" then none
  else match emb with
    | .raised => none
    | .sv v => some v
    | .dict ps => some ⟨ps.map Prod.fst, ps.map Prod.snd⟩
    | .other => none

/-- The named-vector dict of a PointStruct: entries `text-dense` /
`text-sparse`, each present only when the corresponding vector was built. -/
structure VectorDict where
  dense : Option (List ℝ)
  sparse : Option SparseVec

/-- One `client.upsert` call as issued by `upsert_data_point`. -/
structure UpsertCall where
  collection : String
  pointId : String
  vectors : Option VectorDict
  payload : List (String × PyVal)

/-- Observable behaviour of one `upsert_data_point` invocation: its return
value and the `client.upsert` calls it issued. -/
structure UpsertTrace where
  ret : Bool
  upsertCalls : List UpsertCall

/-- Outcome of the single direct `client.upsert` call. -/
inductive ClientCallRes where
  | ok
  | raise

/-- Embeds `QdrantMixin.upsert_data_point`: builds payload and both vectors,
returns `False` issuing no index call when BOTH are `None`
(`if dense_vec is None and sparse_vec is None`), otherwise issues ONE
direct `client.upsert` call (not wrapped in `_with_retries`) inside
`try/except`: `True` if it returns, `False` if it raises.
`_ensure_collection` is best-effort and affects neither outcome. -/
def upsert_data_point (e : Entity) (dres : DenseEmbedRes) (sres : SparseEmbedRes)
    (clientUpsert : ClientCallRes) : UpsertTrace :=
  let coll := _collection_name e
  let payload := _build_payload e
  let dense_vec := _build_dense_vector e dres
  let sparse_vec := _build_sparse_vector e sres
  if dense_vec.isNone && sparse_vec.isNone then ⟨false, []⟩
  else
    let vd : VectorDict := ⟨dense_vec, sparse_vec⟩
    let call : UpsertCall :=
      ⟨coll, _point_id e,
        if dense_vec.isNone && sparse_vec.isNone then none else some vd, payload⟩
    match clientUpsert with
    | .ok => ⟨true, [call]⟩
    | .raise => ⟨false, [call]⟩

/-- Note `_with_retries` would attempt a persistently-transiently-failing call
5 times; shared by the C5 counterexample. -/
def transientAttempts : ℕ :=
  (_with_retries (fun _ => (CallRes.transient : CallRes Unit)) (fun _ : ℕ => 0)).attempts

/-- Python exceptions distinguished by the embedding. -/
inductive PyErr where
  | valueError
  | exc
deriving DecidableEq

/-- Outcome of the remote call inside `EmbeddingGenerator
.generate_dense_vector`: the OpenAI call returned an embedding or raised. -/
inductive DenseProviderRes where
  | ok (l : List ℝ)
  | raise

/-- Embeds `EmbeddingGenerator.generate_dense_vector`: `if not text: raise
ValueError("text is required")`; otherwise the provider result is
returned, and any provider exception is caught, logged and turned into
`[]`. -/
def generate_dense_vector (text : String) (provider : DenseProviderRes) :
    Except PyErr (List ℝ) :=
  if text = "" then .error .valueError
  else match provider with
    | .ok l => .ok l
    | .raise => .ok []

/-- A point stored in a Qdrant collection, as relevant to search results:
its id and payload. -/
structure SPoint where
  id : String
  payload : List (String × PyVal)
deriving DecidableEq

/-- A Qdrant `FieldCondition` with a `MatchValue`, as built by
`_search_qdrant`. -/
inductive FieldCond where
  | matchValue (key : String) (value : String)
deriving DecidableEq

/-- Qdrant keyword-match semantics: the condition holds when the payload
value at `key` is exactly the string `value` (a missing key matches
nothing). -/
def satisfiesCond (p : SPoint) : FieldCond → Bool
  | .matchValue k v => payloadGet p.payload k == .vStr v

/-- Model of `qm.Filter(must=conds)` (`none` models passing `query_filter=None`):
all `must` conditions are required. -/
def satisfiesFilter (p : SPoint) : Option (List FieldCond) → Bool
  | none => true
  | some conds => conds.all (satisfiesCond p)

/-- Model of the index service honouring a filtered `query_points` call
(spec §6 wire contract): the stored points satisfying the filter, in
stored order, truncated to the requested limit.  The fused dense/sparse
ranking is abstracted into the stored order. -/
def queryPointsModel (store : List SPoint) (f : Option (List FieldCond)) (lim : ℕ) :
    List SPoint :=
  (store.filter (fun p => satisfiesFilter p f)).take lim

/-- The `filter_conditions` / `query_filter` construction of
`_search_qdrant`: one org equality condition when `org_id` is truthy, and
`None` instead of an empty `must` list. -/
def buildSearchFilter (org_id : Option String) : Option (List FieldCond) :=
  let conds := match org_id with
    | some o => if o != "" then [FieldCond.matchValue "org" o] else []
    | none => []
  if conds.isEmpty then none else some conds

/-- Environment of a `_search_qdrant` call: outcomes of the
`collection_exists` and `query_points` attempts (both wrapped in
`_with_retries`), the stored points, and the jitter draws. -/
structure SearchEnv where
  existsRes : ℕ → CallRes Bool
  queryRes : ℕ → CallRes Unit
  store : List SPoint
  rnd : ℕ → ℚ

/-- Embeds `QdrantMixin._search_qdrant`: the `collection_exists` check runs under
`_with_retries` OUTSIDE any `try`, so its post-retry failure propagates;
`generate_dense_vector(query)` is likewise unguarded (the sparse embedder
never raises); only the `query_points` call sits inside `try/except`,
whose handler returns `[]`. -/
def _search_qdrant (env : SearchEnv) (query : String) (lim : ℕ)
    (org_id : Option String) (dp : DenseProviderRes) :
    Except PyErr (List SPoint) :=
  match (_with_retries env.existsRes env.rnd).outcome with
  | .raisedTransient => .error .exc
  | .raisedFatal => .error .exc
  | .success b =>
    if !b then .ok []
    else
      match generate_dense_vector query dp with
      | .error e => .error e
      | .ok _ =>
        match (_with_retries env.queryRes env.rnd).outcome with
        | .success _ => .ok (queryPointsModel env.store (buildSearchFilter org_id) lim)
        | .raisedTransient => .ok []
        | .raisedFatal => .ok []

/-- A search environment whose `collection_exists` call fails transiently
on every attempt. -/
def c7FailingEnv : SearchEnv :=
  ⟨fun _ => .transient, fun _ => .ok (), [], fun _ => 0⟩

/-- A search environment where the collection is reported absent. -/
def c7AbsentEnv : SearchEnv :=
  ⟨fun _ => .ok false, fun _ => .ok (), [⟨"p1", [("org", .vStr "o1")]⟩], fun _ => 0⟩

/-- Python `sum(x ** 2 for x in vec)`. -/
def sumSq (a : List ℝ) : ℝ :=
  (a.map (fun x => x ^ 2)).sum

/-- Python `sum(a * b for a, b in zip(vec1, vec2))` — `zip` truncates to the
shorter list. -/
def listDot (a b : List ℝ) : ℝ :=
  (List.zipWith (fun x y => x * y) a b).sum

/-- Python `(sum(x ** 2 for x in vec)) ** 0.5`. -/
noncomputable def listNorm (a : List ℝ) : ℝ :=
  Real.sqrt (sumSq a)

/-- Embeds `QdrantMixin._cosine_similarity`: `0.0` when either norm is zero, else
`dot_product / (norm1 * norm2)`. -/
noncomputable def _cosine_similarity (vec1 vec2 : List ℝ) : ℝ :=
  if listNorm vec1 = 0 ∨ listNorm vec2 = 0 then 0
  else listDot vec1 vec2 / (listNorm vec1 * listNorm vec2)

/-- A point retrieved with vectors and payload, as consumed by
`_compute_similarities`. -/
structure TPoint where
  vector : VectorDict
  payload : List (String × PyVal)

/-- Python truthiness of the named-vector dict (`if not point.vector`). -/
def vecDictTruthy (v : VectorDict) : Bool :=
  v.dense.isSome || v.sparse.isSome

/-- Embeds `QdrantMixin._calculate_point_similarity`:
`source_vector.get("text-dense", [])` on both sides, `None` when either is
empty, else the cosine similarity. -/
noncomputable def _calculate_point_similarity (src tgt : VectorDict) : Option ℝ :=
  let source_dense := src.dense.getD []
  let target_dense := tgt.dense.getD []
  if source_dense.isEmpty || target_dense.isEmpty then none
  else some (_cosine_similarity source_dense target_dense)

/-- One `{"mongo_id": ..., "similarity_score": ...}` result entry. -/
structure SimEntry where
  mongo_id : PyVal
  similarity_score : ℝ

/-- Embeds `QdrantMixin._compute_similarities`: skip points without vector or
payload, without a truthy `_id`, or failing `_passes_filters`; append an
entry for each remaining point whose similarity is computable. -/
noncomputable def _compute_similarities (src : VectorDict) :
    List TPoint → Option String → List SimEntry
  | [], _ => []
  | point :: rest, org_id =>
    let tail := _compute_similarities src rest org_id
    if !(vecDictTruthy point.vector) || point.payload.isEmpty then tail
    else if !(pyTruthy (payloadGet point.payload "_id")) then tail
    else if !(_passes_filters point.payload org_id) then tail
    else match _calculate_point_similarity src point.vector with
      | none => tail
      | some s => ⟨payloadGet point.payload "_id", s⟩ :: tail

/-- A store with one point per tenant, used by the C2 witness. -/
def c2Store : List SPoint :=
  [⟨"c1", [("org", .vStr "o1"), ("_id", .vStr "c1")]⟩,
   ⟨"c2", [("org", .vStr "o2"), ("_id", .vStr "c2")]⟩]

/-- A search environment whose calls all succeed over `c2Store`. -/
def c2Env : SearchEnv :=
  ⟨fun _ => .ok true, fun _ => .ok (), c2Store, fun _ => 0⟩

/-- Target points of both tenants, used by the C2 witness. -/
noncomputable def c2Targets : List TPoint :=
  [⟨⟨some [1], none⟩, [("org", .vStr "o1"), ("_id", .vStr "c1")]⟩,
   ⟨⟨some [1], none⟩, [("org", .vStr "o2"), ("_id", .vStr "c2")]⟩]

/-- Outcome of `queryset._document_class.objects(id=doc_id).first()` for
one id: a document was found, none matched, or the fetch raised. -/
inductive FetchRes where
  | found
  | notFound
  | raise
deriving DecidableEq

/-- Environment of a `_resync_affected_documents` run: the per-id fetch
outcome and whether the per-document `upsert_data_point()` call returns
normally (`true`) or raises (`false`). -/
structure ResyncEnv where
  fetch : String → FetchRes
  upsertOk : String → Bool

/-- Observable behaviour of `_resync_affected_documents`: the ids for
which `upsert_data_point` was invoked, and whether the single batch-level
`except` handler caught an exception (ending the loop). -/
structure ResyncTrace where
  upserted : List String
  caught : Bool
deriving DecidableEq

/-- Embeds `QdrantMixin._resync_affected_documents`: one `try/except` wraps the
WHOLE `for doc_id in affected_ids` loop, so the first raising fetch or
upsert is caught at batch level and the remaining ids are never
processed. -/
def _resync_affected_documents (env : ResyncEnv) : List String → ResyncTrace
  | [] => ⟨[], false⟩
  | doc_id :: rest =>
    match env.fetch doc_id with
    | .raise => ⟨[], true⟩
    | .notFound => _resync_affected_documents env rest
    | .found =>
      if env.upsertOk doc_id then
        let r := _resync_affected_documents env rest
        ⟨doc_id :: r.upserted, r.caught⟩
      else ⟨[doc_id], true⟩

/-- Resync environment where fetching id `a` raises and everything else
succeeds. -/
def c8Env : ResyncEnv :=
  ⟨fun i => if i == "a" then .raise else .found, fun _ => true⟩

/-- C1: the tenant-equality filter applied to the payload the code itself
builds for the spec-scenario candidate of org `o1` REJECTS tenant `o1`:
`Candidate.payload_fields` omits `org`, so the built payload has no `org`
key, `payload.get("org")` is `None`, and `_passes_filters` returns
`False` — contradicting the claim (and the code comment that the org id is
"stored in payload as org field"). -/
theorem c1_filter_rejects_own_tenant :
    _passes_filters (_build_payload c1Candidate) (some "o1") = false := by
  decide

/-- C10: whenever the model class declares a truthy `qdrant_collection`
class attribute (as `Candidate` and `JobListing` do), `_collection_name`
returns that class-level name for every instance — the per-org branch is
never reached, whatever the instance `org` attribute is. -/
theorem c10_class_collection_wins (e : Entity) (c : String)
    (hq : e.qdrant_collection = some c) (hc : c ≠ "") :
    _collection_name e = c := by
  unfold _collection_name
  rw [hq]
  simp [Option.getD]
  intro h
  exact absurd h hc

/-- C10 witness: the spec-scenario candidate has `qdrant_collection =
"ha_candidates"` and an org reference, and `_collection_name` still
returns the shared class-level collection name. -/
theorem c10_witness :
    c1Candidate.qdrant_collection = some "ha_candidates" ∧
    "ha_candidates" ≠ "" ∧
    _collection_name c1Candidate = "ha_candidates" := by
  refine ⟨rfl, by decide, ?_⟩
  exact c10_class_collection_wins c1Candidate "ha_candidates" rfl (by decide)

/-- The retry-loop invariant holds, by induction on the remaining fuel. -/
theorem retryLoop_spec {α : Type} (fn : ℕ → CallRes α) (rnd : ℕ → ℚ) (base : ℚ)
    (k fuel : ℕ) (hfuel : 0 < fuel) :
    retryInv fn rnd base k fuel (retryLoop fn rnd base k fuel) := by
  induction fuel generalizing k with
  | zero => omega
  | succ fuel ih =>
    rcases hfn : fn (k + 1) with v | _ | _
    · have hu : retryLoop fn rnd base k (fuel + 1) = ⟨.success v, 1, []⟩ := by
        rw [retryLoop]; simp [hfn]
      rw [hu]
      unfold retryInv
      dsimp only
      refine ⟨⟨le_refl 1, by omega⟩, rfl, ?_, ?_, ?_, ?_, ?_⟩
      · intro i hi; simp at hi
      · intro j hj; omega
      · intro w hw
        simp only [RetryOutcome.success.injEq] at hw
        subst hw
        simpa using hfn
      · intro h; cases h
      · intro h; cases h
    · by_cases hf : fuel = 0
      · subst hf
        have hu : retryLoop fn rnd base k 1 = ⟨.raisedTransient, 1, []⟩ := by
          rw [retryLoop]; simp [hfn]
        rw [hu]
        unfold retryInv
        dsimp only
        refine ⟨⟨le_refl 1, le_refl 1⟩, rfl, ?_, ?_, ?_, ?_, ?_⟩
        · intro i hi; simp at hi
        · intro j hj; omega
        · intro w hw; cases hw
        · intro h; cases h
        · intro h; exact ⟨by simpa using hfn, rfl⟩
      · have hrec := ih (k + 1) (Nat.pos_of_ne_zero hf)
        set r2 := retryLoop fn rnd base (k + 1) fuel with hr2
        obtain ⟨⟨ha1, ha2⟩, hlen, hsleep, htrans, hsucc, hfatal, hlast⟩ := hrec
        have hu : retryLoop fn rnd base k (fuel + 1) =
            ⟨r2.outcome, r2.attempts + 1,
              (base * 2 ^ k * (7/10 + 3/5 * rnd (k + 1))) :: r2.sleeps⟩ := by
          rw [retryLoop]; simp [hfn, hf, hr2]
        rw [hu]
        unfold retryInv
        dsimp only
        refine ⟨⟨by omega, by omega⟩, by simp [hlen]; omega, ?_, ?_, ?_, ?_, ?_⟩
        · intro i hi
          match i with
          | 0 => simp
          | i + 1 =>
            simp only [List.length_cons] at hi
            have hi2 : i < r2.sleeps.length := by omega
            have := hsleep i hi2
            simp only [List.get_cons_succ]
            rw [this]
            ring_nf
        · intro j hj
          match j with
          | 0 => simpa using hfn
          | j + 1 =>
            have := htrans j (by omega)
            convert this using 2
            omega
        · intro w hw
          have := hsucc w hw
          convert this using 2
          omega
        · intro hw
          have := hfatal hw
          convert this using 2
          omega
        · intro hw
          obtain ⟨h1, h2⟩ := hlast hw
          constructor
          · convert h1 using 2; omega
          · omega
    · have hu : retryLoop fn rnd base k (fuel + 1) = ⟨.raisedFatal, 1, []⟩ := by
        rw [retryLoop]; simp [hfn]
      rw [hu]
      unfold retryInv
      dsimp only
      refine ⟨⟨le_refl 1, by omega⟩, rfl, ?_, ?_, ?_, ?_, ?_⟩
      · intro i hi; simp at hi
      · intro j hj; omega
      · intro w hw; cases hw
      · intro h; simpa using hfn
      · intro h; cases h

/-- C6: with the defaults used at every call site (`max_tries = 5`,
`base_delay = 1`) and `random()` draws in `[0, 1)`: at most 5 attempts are
made; the delay before the n-th retry is `2 ^ (n-1) * (0.7 + 0.6 *
random())`, a value in `[0.7 * 2^(n-1), 1.3 * 2^(n-1))`; every non-final
attempt failed with a classified-transient error (only transient errors
are retried); a non-transient error ends the loop at the attempt that
raised it, propagating immediately; and if all 5 attempts fail transiently
the transient error of the 5th attempt is raised. -/
theorem c6_retry_policy {α : Type} (fn : ℕ → CallRes α) (rnd : ℕ → ℚ)
    (hrnd : ∀ n, 0 ≤ rnd n ∧ rnd n < 1) :
    (1 ≤ (_with_retries fn rnd).attempts ∧ (_with_retries fn rnd).attempts ≤ 5) ∧
    (_with_retries fn rnd).sleeps.length = (_with_retries fn rnd).attempts - 1 ∧
    (∀ i, (hi : i < (_with_retries fn rnd).sleeps.length) →
      (_with_retries fn rnd).sleeps.get ⟨i, hi⟩ = 2 ^ i * (7/10 + 3/5 * rnd (i + 1)) ∧
      (7:ℚ)/10 * 2 ^ i ≤ (_with_retries fn rnd).sleeps.get ⟨i, hi⟩ ∧
      (_with_retries fn rnd).sleeps.get ⟨i, hi⟩ < (13:ℚ)/10 * 2 ^ i) ∧
    (∀ j, j + 1 < (_with_retries fn rnd).attempts → fn (j + 1) = .transient) ∧
    (∀ v, (_with_retries fn rnd).outcome = .success v →
      fn (_with_retries fn rnd).attempts = .ok v) ∧
    ((_with_retries fn rnd).outcome = .raisedFatal →
      fn (_with_retries fn rnd).attempts = .fatal) ∧
    ((∀ n, 1 ≤ n → n ≤ 5 → fn n = .transient) →
      (_with_retries fn rnd).outcome = .raisedTransient ∧
      (_with_retries fn rnd).attempts = 5) := by
  have h := retryLoop_spec fn rnd 1 0 5 (by omega)
  obtain ⟨hatt, hlen, hsleep, htrans, hsucc, hfatal, hlast⟩ := h
  have hw : _with_retries fn rnd = retryLoop fn rnd 1 0 5 := rfl
  rw [hw]
  refine ⟨hatt, hlen, ?_, ?_, ?_, ?_, ?_⟩
  · intro i hi
    have heq := hsleep i hi
    simp only [Nat.zero_add] at heq
    have hval : (retryLoop fn rnd 1 0 5).sleeps.get ⟨i, hi⟩ =
        2 ^ i * (7/10 + 3/5 * rnd (i + 1)) := by
      rw [heq]; ring
    refine ⟨hval, ?_, ?_⟩
    · rw [hval]
      have := (hrnd (i + 1)).1
      have h2 : (0:ℚ) < 2 ^ i := by positivity
      nlinarith
    · rw [hval]
      have := (hrnd (i + 1)).2
      have h2 : (0:ℚ) < 2 ^ i := by positivity
      nlinarith
  · intro j hj
    have := htrans j hj
    simpa using this
  · intro v hv
    have := hsucc v hv
    simpa using this
  · intro hv
    have := hfatal hv
    simpa using this
  · intro hall
    rcases hout : (retryLoop fn rnd 1 0 5).outcome with v | _ | _
    · have h1 := hsucc v hout
      have h2 : fn (0 + (retryLoop fn rnd 1 0 5).attempts) = .transient := by
        exact hall _ (by omega) (by omega)
      rw [h1] at h2
      cases h2
    · exact ⟨rfl, (hlast hout).2⟩
    · have h1 := hfatal hout
      have h2 : fn (0 + (retryLoop fn rnd 1 0 5).attempts) = .transient := by
        exact hall _ (by omega) (by omega)
      rw [h1] at h2
      cases h2

/-- C6 witness: a call that fails transiently twice and then succeeds,
with jitter draw 1/2, satisfies the random-draw hypothesis and makes at
most 5 attempts. -/
theorem c6_witness :
    (∀ n, 0 ≤ (fun _ : ℕ => (1:ℚ)/2) n ∧ (fun _ : ℕ => (1:ℚ)/2) n < 1) ∧
    ((_with_retries (fun n => if n < 3 then CallRes.transient else CallRes.ok 42)
        (fun _ : ℕ => (1:ℚ)/2)).attempts ≤ 5) := by
  constructor
  · intro n
    constructor <;> norm_num
  · exact (c6_retry_policy (fun n => if n < 3 then CallRes.transient else CallRes.ok 42)
      (fun _ : ℕ => (1:ℚ)/2) (fun n => by constructor <;> norm_num)).1.2

/-- C3: when both embedders return EMPTY results (`[]` from the dense
provider, `{}` from the sparse provider) for the spec-scenario candidate,
whose embedding texts are non-empty, the builders yield `some []` /
`some ⟨[], []⟩` — neither is `None` — so the `is None` guard does not
fire: `upsert_data_point` issues the index upsert call (with empty
vectors) and returns `True`, contradicting the claim and the code comment
that at least one vector is required for the point. -/
theorem c3_empty_embeddings_still_upserted :
    (upsert_data_point c1Candidate (.vec []) (.dict []) .ok).ret = true ∧
    (upsert_data_point c1Candidate (.vec []) (.dict []) .ok).upsertCalls.length = 1 := by
  constructor <;> decide

/-- C5 counterexample: for the spec-scenario candidate with a non-empty
dense vector and an index `upsert` that fails, the code issues exactly ONE
`client.upsert` attempt, while a call issued under the `_with_retries`
wrapper against a persistently-transient failure makes 5 attempts — so the
upsert is NOT issued under the RetryPolicy wrapper as the claim states. -/
theorem c5_upsert_not_under_retry :
    (upsert_data_point c1Candidate (.vec [1]) .raised .raise).upsertCalls.length = 1 ∧
    transientAttempts = 5 ∧ (1 : ℕ) ≠ 5 := by
  refine ⟨by decide, by decide, by decide⟩

/-- C5 as amended: when at least one vector was built, `upsert_data_point`
issues the `client.upsert` call exactly once (directly, not under the
retry wrapper), and if that single call raises, it returns `False` without
propagating; if it returns, the result is `True`. -/
theorem c5_upsert_single_attempt_soft_failure (e : Entity) (dres : DenseEmbedRes)
    (sres : SparseEmbedRes) (cu : ClientCallRes)
    (hvec : (_build_dense_vector e dres).isSome ∨ (_build_sparse_vector e sres).isSome) :
    (upsert_data_point e dres sres cu).upsertCalls.length = 1 ∧
    (cu = .raise → (upsert_data_point e dres sres cu).ret = false) ∧
    (cu = .ok → (upsert_data_point e dres sres cu).ret = true) := by
  have hguard : ((_build_dense_vector e dres).isNone &&
      (_build_sparse_vector e sres).isNone) = false := by
    rcases hvec with h | h <;> simp [Option.isSome_iff_exists] at h <;>
      obtain ⟨v, hv⟩ := h <;> simp [hv]
  simp only [upsert_data_point, hguard]
  cases cu <;> simp

/-- C5 witness: the spec-scenario candidate with an empty-but-present dense
vector and a failing index call — one attempt, returns `False`. -/
theorem c5_witness :
    ((_build_dense_vector c1Candidate (.vec [])).isSome ∨
      (_build_sparse_vector c1Candidate .raised).isSome) ∧
    (upsert_data_point c1Candidate (.vec []) .raised .raise).upsertCalls.length = 1 ∧
    (upsert_data_point c1Candidate (.vec []) .raised .raise).ret = false := by
  have h := c5_upsert_single_attempt_soft_failure c1Candidate (.vec []) .raised .raise
    (Or.inl rfl)
  exact ⟨Or.inl rfl, h.1, h.2.1 rfl⟩

/-- Helper: for non-empty input `generate_dense_vector` always returns a
list (never an error). -/
theorem generate_dense_vector_ok (text : String) (p : DenseProviderRes)
    (ht : text ≠ "") : ∃ l, generate_dense_vector text p = .ok l := by
  cases p with
  | ok l => exact ⟨l, by simp [generate_dense_vector, ht]⟩
  | raise => exact ⟨[], by simp [generate_dense_vector, ht]⟩

/-- C4 counterexample: on empty input `generate_dense_vector` RAISES
`ValueError` to its caller instead of returning an empty result. -/
theorem c4_raises_on_empty_input :
    generate_dense_vector "" (.ok []) = .error .valueError := by
  rfl

/-- C4 as amended: `generate_dense_vector` raises `ValueError` on empty
input; for non-empty input it never raises — a provider error is caught,
logged and returned as `[]` (the degraded sparse-only mode). -/
theorem c4_dense_raises_only_on_empty (text : String) (p : DenseProviderRes) :
    (text = "" → generate_dense_vector text p = .error .valueError) ∧
    (text ≠ "" → ∃ l, generate_dense_vector text p = .ok l) ∧
    (text ≠ "" → p = .raise → generate_dense_vector text p = .ok []) := by
  refine ⟨?_, ?_, ?_⟩
  · intro h
    simp [generate_dense_vector, h]
  · intro h
    exact generate_dense_vector_ok text p h
  · intro h hp
    subst hp
    simp [generate_dense_vector, h]

/-- C4 witness: with non-empty input and a failing provider, the function
returns `[]` without raising. -/
theorem c4_witness :
    ("systems engineer" : String) ≠ "" ∧
    generate_dense_vector "systems engineer" .raise = .ok [] := by
  refine ⟨by decide, ?_⟩
  exact (c4_dense_raises_only_on_empty "systems engineer" .raise).2.2 (by decide) rfl

/-- C7 counterexample: when the `collection_exists` check keeps failing
transiently, `_with_retries` re-raises after the 5th attempt and
`_search_qdrant` propagates the exception to its caller instead of
returning an empty list. -/
theorem c7_exists_check_failure_raises :
    _search_qdrant c7FailingEnv "systems engineer" 5 none (.ok []) = .error .exc := by
  rfl

/-- C7 as amended: `_search_qdrant` returns `[]` (not an error) when the
destination collection does not exist, and a `query_points` failure that
persists after retries — transient or not — is caught and also yields
`[]`; but a post-retry failure of the `collection_exists` check itself
(and an embedding error on an empty query) propagates to the caller. -/
theorem c7_search_soft_failure_paths (env : SearchEnv) (query : String) (lim : ℕ)
    (org_id : Option String) (dp : DenseProviderRes) :
    ((_with_retries env.existsRes env.rnd).outcome = .success false →
      _search_qdrant env query lim org_id dp = .ok []) ∧
    ((_with_retries env.existsRes env.rnd).outcome = .success true → query ≠ "" →
      ((_with_retries env.queryRes env.rnd).outcome = .raisedTransient ∨
        (_with_retries env.queryRes env.rnd).outcome = .raisedFatal) →
      _search_qdrant env query lim org_id dp = .ok []) ∧
    ((_with_retries env.existsRes env.rnd).outcome = .raisedTransient ∨
        (_with_retries env.existsRes env.rnd).outcome = .raisedFatal →
      _search_qdrant env query lim org_id dp = .error .exc) := by
  refine ⟨?_, ?_, ?_⟩
  · intro h
    simp [_search_qdrant, h]
  · intro h hq hfail
    have hdense : ∃ l, generate_dense_vector query dp = .ok l :=
      generate_dense_vector_ok query dp hq
    obtain ⟨l, hl⟩ := hdense
    rcases hfail with hf | hf <;> simp [_search_qdrant, h, hl, hf]
  · intro h
    rcases h with hf | hf <;> simp [_search_qdrant, hf]

/-- C7 witness: with the collection absent, the search returns the empty
list rather than an error. -/
theorem c7_witness :
    (_with_retries c7AbsentEnv.existsRes c7AbsentEnv.rnd).outcome =
        RetryOutcome.success false ∧
    _search_qdrant c7AbsentEnv "systems engineer" 5 (some "o1") (.ok []) = .ok [] := by
  refine ⟨by decide, ?_⟩
  exact (c7_search_soft_failure_paths c7AbsentEnv "systems engineer" 5 (some "o1")
    (.ok [])).1 (by decide)

theorem sumSq_nonneg (a : List ℝ) : 0 ≤ sumSq a := by
  unfold sumSq
  induction a with
  | nil => simp
  | cons x xs ih =>
    simp only [List.map_cons, List.sum_cons]
    have := sq_nonneg x
    linarith

theorem two_mul_le_of_sq_le_mul (u v w : ℝ) (hu : 0 ≤ u) (hv : 0 ≤ v)
    (h : w ^ 2 ≤ u * v) : 2 * w ≤ u + v := by
  nlinarith [sq_nonneg (u - v), sq_nonneg (u + v)]

/-- Cauchy–Schwarz for the truncating list dot product. -/
theorem listDot_sq_le_sumSq_mul (a b : List ℝ) :
    (listDot a b) ^ 2 ≤ sumSq a * sumSq b := by
  induction a generalizing b with
  | nil =>
    simp [listDot, sumSq]
  | cons x xs ih =>
    cases b with
    | nil =>
      simp [listDot, sumSq]
    | cons y ys =>
      have hA := sumSq_nonneg xs
      have hB := sumSq_nonneg ys
      have hd := ih ys
      have hsq : (x * y * listDot xs ys) ^ 2 ≤ (x ^ 2 * sumSq ys) * (sumSq xs * y ^ 2) := by
        nlinarith [mul_le_mul_of_nonneg_left hd (sq_nonneg (x * y))]
      have key : 2 * (x * y * listDot xs ys) ≤ x ^ 2 * sumSq ys + sumSq xs * y ^ 2 :=
        two_mul_le_of_sq_le_mul _ _ _ (by positivity) (by positivity) hsq
      have hdot : listDot (x :: xs) (y :: ys) = x * y + listDot xs ys := by
        simp [listDot]
      have hsa : sumSq (x :: xs) = x ^ 2 + sumSq xs := by
        simp [sumSq]
      have hsb : sumSq (y :: ys) = y ^ 2 + sumSq ys := by
        simp [sumSq]
      rw [hdot, hsa, hsb]
      nlinarith [hd, key]

theorem abs_listDot_le_mul_norm (a b : List ℝ) :
    |listDot a b| ≤ listNorm a * listNorm b := by
  have h := listDot_sq_le_sumSq_mul a b
  have ha := sumSq_nonneg a
  have hmul : listNorm a * listNorm b = Real.sqrt (sumSq a * sumSq b) :=
    (Real.sqrt_mul ha _).symm
  rw [hmul, ← Real.sqrt_sq_eq_abs]
  exact Real.sqrt_le_sqrt h

/-- C9: for equal-length vectors, when both norms are non-zero the result
is exactly `dot / (norm1 * norm2)` and lies in `[-1, 1]`; when either norm
is zero the result is exactly `0.0` (the function is total — never NaN or
an error). -/
theorem c9_cosine_bounds (a b : List ℝ) (_hlen : a.length = b.length) :
    ((listNorm a ≠ 0 ∧ listNorm b ≠ 0) →
      _cosine_similarity a b = listDot a b / (listNorm a * listNorm b) ∧
      -1 ≤ _cosine_similarity a b ∧ _cosine_similarity a b ≤ 1) ∧
    ((listNorm a = 0 ∨ listNorm b = 0) → _cosine_similarity a b = 0) := by
  constructor
  · rintro ⟨h1, h2⟩
    have hval : _cosine_similarity a b = listDot a b / (listNorm a * listNorm b) := by
      rw [_cosine_similarity, if_neg]
      push_neg
      exact ⟨h1, h2⟩
    have hna : 0 < listNorm a :=
      lt_of_le_of_ne (Real.sqrt_nonneg _) (Ne.symm h1)
    have hnb : 0 < listNorm b :=
      lt_of_le_of_ne (Real.sqrt_nonneg _) (Ne.symm h2)
    have hpos : 0 < listNorm a * listNorm b := mul_pos hna hnb
    have habs : |listDot a b / (listNorm a * listNorm b)| ≤ 1 := by
      rw [abs_div, abs_of_pos hpos]
      exact div_le_one_of_le₀ (abs_listDot_le_mul_norm a b) (le_of_lt hpos)
    have hb := abs_le.mp habs
    refine ⟨hval, ?_, ?_⟩
    · rw [hval]; exact hb.1
    · rw [hval]; exact hb.2
  · intro h
    rw [_cosine_similarity, if_pos h]

/-- C9 witness: `[3, 4]` and `[4, 3]` have equal length and norms `5 ≠ 0`,
and the similarity lies in `[-1, 1]`. -/
theorem c9_witness :
    (([3, 4] : List ℝ).length = ([4, 3] : List ℝ).length ∧
      listNorm [3, 4] ≠ 0 ∧ listNorm [4, 3] ≠ 0) ∧
    (-1 ≤ _cosine_similarity [3, 4] [4, 3] ∧ _cosine_similarity [3, 4] [4, 3] ≤ 1) := by
  have hs1 : sumSq ([3, 4] : List ℝ) = 25 := by
    norm_num [sumSq]
  have hs2 : sumSq ([4, 3] : List ℝ) = 25 := by
    norm_num [sumSq]
  have hn1 : listNorm ([3, 4] : List ℝ) ≠ 0 := by
    rw [listNorm, hs1]
    rw [Real.sqrt_ne_zero (by norm_num)]
    norm_num
  have hn2 : listNorm ([4, 3] : List ℝ) ≠ 0 := by
    rw [listNorm, hs2]
    rw [Real.sqrt_ne_zero (by norm_num)]
    norm_num
  have h := (c9_cosine_bounds ([3, 4] : List ℝ) ([4, 3] : List ℝ) rfl).1 ⟨hn1, hn2⟩
  exact ⟨⟨rfl, hn1, hn2⟩, h.2.1, h.2.2⟩

/-- When the supplied tenant id is truthy, passing `_passes_filters` forces
the payload's `org` entry to be exactly that tenant string. -/
theorem passes_filters_org_eq (payload : List (String × PyVal)) (t : String)
    (ht : t ≠ "") (h : _passes_filters payload (some t) = true) :
    payloadGet payload "org" = .vStr t := by
  have h' : (if (t != "" && pyNeStr (payloadGet payload "org") t) = true
      then false else true) = true := h
  by_cases hcond : (t != "" && pyNeStr (payloadGet payload "org") t) = true
  · rw [if_pos hcond] at h'
    cases h'
  · have hb : (t != "") = true := bne_iff_ne.mpr ht
    have h2 : pyNeStr (payloadGet payload "org") t = false := by
      rcases hx : pyNeStr (payloadGet payload "org") t
      · rfl
      · exact absurd (by simp [hb, hx]) hcond
    rcases hv : payloadGet payload "org" with _ | s | _ | _ | _ <;>
      rw [hv] at h2 <;> simp [pyNeStr] at h2
    rw [h2]

/-- Membership in the result of a filtered-query model forces the org
condition. -/
theorem queryPointsModel_org (store : List SPoint) (t : String) (ht : t ≠ "")
    (lim : ℕ) (p : SPoint)
    (hp : p ∈ queryPointsModel store (buildSearchFilter (some t)) lim) :
    payloadGet p.payload "org" = .vStr t := by
  unfold queryPointsModel at hp
  have hp2 := List.take_subset lim _ hp
  have hp3 := (List.mem_filter.mp hp2).2
  have hbs : buildSearchFilter (some t) = some [FieldCond.matchValue "org" t] := by
    unfold buildSearchFilter
    simp [bne_iff_ne.mpr ht]
  rw [hbs] at hp3
  simp [satisfiesFilter, satisfiesCond] at hp3
  exact hp3

/-- C2: tenant isolation.  (search) Whenever `_search_qdrant` is called
with a truthy `org_id` and returns a result list, every returned point's
payload has `org` equal to that tenant.  (similarity) Every entry of
`_compute_similarities` under a truthy `org_id` stems from a target point
whose payload `org` equals that tenant, and carries that point's `_id`. -/
theorem c2_tenant_isolation (env : SearchEnv) (query : String) (lim : ℕ)
    (t : String) (dp : DenseProviderRes) (src : VectorDict) (tps : List TPoint)
    (ht : t ≠ "") :
    (∀ pts, _search_qdrant env query lim (some t) dp = .ok pts →
      ∀ p ∈ pts, payloadGet p.payload "org" = .vStr t) ∧
    (∀ r ∈ _compute_similarities src tps (some t),
      ∃ p ∈ tps, payloadGet p.payload "org" = .vStr t ∧
        r.mongo_id = payloadGet p.payload "_id") := by
  constructor
  · intro pts hres p hp
    unfold _search_qdrant at hres
    rcases h1 : (_with_retries env.existsRes env.rnd).outcome with b | _ | _ <;>
      rw [h1] at hres
    · rcases b with _ | _
      · simp at hres
        subst hres
        simp at hp
      · simp at hres
        rcases h2 : generate_dense_vector query dp with e | l <;> rw [h2] at hres
        · cases hres
        · rcases h3 : (_with_retries env.queryRes env.rnd).outcome with u | _ | _ <;>
            rw [h3] at hres <;> simp at hres <;> subst hres
          · exact queryPointsModel_org env.store t ht lim p hp
          · simp at hp
          · simp at hp
    · cases hres
    · cases hres
  · intro r hr
    induction tps with
    | nil => simp [_compute_similarities] at hr
    | cons point rest ih =>
      unfold _compute_similarities at hr
      by_cases hskip1 : (!(vecDictTruthy point.vector) || point.payload.isEmpty) = true
      · rw [if_pos hskip1] at hr
        obtain ⟨p, hp, hh⟩ := ih hr
        exact ⟨p, List.mem_cons_of_mem _ hp, hh⟩
      · rw [if_neg hskip1] at hr
        by_cases hskip2 : (!(pyTruthy (payloadGet point.payload "_id"))) = true
        · rw [if_pos hskip2] at hr
          obtain ⟨p, hp, hh⟩ := ih hr
          exact ⟨p, List.mem_cons_of_mem _ hp, hh⟩
        · rw [if_neg hskip2] at hr
          by_cases hskip3 : (!(_passes_filters point.payload (some t))) = true
          · rw [if_pos hskip3] at hr
            obtain ⟨p, hp, hh⟩ := ih hr
            exact ⟨p, List.mem_cons_of_mem _ hp, hh⟩
          · rw [if_neg hskip3] at hr
            have hpass : _passes_filters point.payload (some t) = true := by
              simpa using hskip3
            rcases hcalc : _calculate_point_similarity src point.vector with _ | s <;>
              rw [hcalc] at hr
            · obtain ⟨p, hp, hh⟩ := ih hr
              exact ⟨p, List.mem_cons_of_mem _ hp, hh⟩
            · rcases List.mem_cons.mp hr with hhead | htail
              · subst hhead
                exact ⟨point, List.mem_cons_self _ _,
                  passes_filters_org_eq point.payload t ht hpass, rfl⟩
              · obtain ⟨p, hp, hh⟩ := ih htail
                exact ⟨p, List.mem_cons_of_mem _ hp, hh⟩

/-- C2 witness: with tenant `"o1"` supplied, both halves of the tenant
isolation theorem hold over a concrete two-tenant store. -/
theorem c2_witness :
    ("o1" : String) ≠ "" ∧
    (∀ pts, _search_qdrant c2Env "systems engineer" 5 (some "o1") (.ok []) = .ok pts →
      ∀ p ∈ pts, payloadGet p.payload "org" = .vStr "o1") ∧
    (∀ r ∈ _compute_similarities ⟨some [1], none⟩ c2Targets (some "o1"),
      ∃ p ∈ c2Targets, payloadGet p.payload "org" = .vStr "o1" ∧
        r.mongo_id = payloadGet p.payload "_id") := by
  have h := c2_tenant_isolation c2Env "systems engineer" 5 "o1" (.ok [])
    ⟨some [1], none⟩ c2Targets (by decide)
  exact ⟨by decide, h.1, h.2⟩

/-- C8 counterexample: with affected ids `["a", "b"]` where the fetch of
`"a"` raises, the batch-level handler catches the exception and `"b"` is
never re-upserted — the failure of one id aborts the rest of the batch,
contrary to the claim. -/
theorem c8_failure_aborts_batch :
    _resync_affected_documents c8Env ["a", "b"] = ⟨[], true⟩ ∧
    "b" ∉ (_resync_affected_documents c8Env ["a", "b"]).upserted := by
  constructor
  · rfl
  · intro h
    simp [_resync_affected_documents, c8Env] at h

/-- C8 as amended: a fetch/upsert failure for one id is caught by the
batch-level handler (logged, never propagated to the bulk update's
caller), but it terminates the loop: the ids before the failing id are
processed normally, a failing upsert still counts its own id, and NO id
after the failure point is processed. -/
theorem c8_failure_caught_but_stops_batch (env : ResyncEnv) (pre : List String)
    (x : String) (post : List String)
    (hpre : ∀ i ∈ pre, env.fetch i ≠ .raise ∧ (env.fetch i = .found → env.upsertOk i = true))
    (hx : env.fetch x = .raise ∨ (env.fetch x = .found ∧ env.upsertOk x = false)) :
    (_resync_affected_documents env (pre ++ x :: post)).caught = true ∧
    (_resync_affected_documents env (pre ++ x :: post)).upserted =
      (_resync_affected_documents env pre).upserted ++
        (if env.fetch x = .found then [x] else []) := by
  induction pre with
  | nil =>
    rcases hx with hf | ⟨hf, hu⟩
    · simp [_resync_affected_documents, hf]
    · simp [_resync_affected_documents, hf, hu]
  | cons i pre ih =>
    have hi := hpre i (List.mem_cons_self _ _)
    have hrest := ih (fun j hj => hpre j (List.mem_cons_of_mem _ hj))
    rcases hfi : env.fetch i with _ | _ | _
    · have hui := hi.2 hfi
      simp only [List.cons_append, _resync_affected_documents, hfi, hui, if_true]
      exact ⟨hrest.1, by simp [hrest.2]⟩
    · simp only [List.cons_append, _resync_affected_documents, hfi]
      exact hrest
    · exact absurd hfi hi.1

/-- C8 witness: ids `["p", "a", "b"]` where `"p"` succeeds and `"a"`
raises — the exception is caught, `"p"` was processed, `"b"` was not. -/
theorem c8_witness :
    (∀ i ∈ ["p"], c8Env.fetch i ≠ .raise ∧
      (c8Env.fetch i = .found → c8Env.upsertOk i = true)) ∧
    (c8Env.fetch "a" = .raise ∨ (c8Env.fetch "a" = .found ∧ c8Env.upsertOk "a" = false)) ∧
    (_resync_affected_documents c8Env (["p"] ++ "a" :: ["b"])).caught = true ∧
    (_resync_affected_documents c8Env (["p"] ++ "a" :: ["b"])).upserted =
      (_resync_affected_documents c8Env ["p"]).upserted ++
        (if c8Env.fetch "a" = .found then ["a"] else []) := by
  have h := c8_failure_caught_but_stops_batch c8Env ["p"] "a" ["b"]
    (by intro i hi; simp at hi; subst hi; exact ⟨by decide, by decide⟩)
    (Or.inl (by decide))
  exact ⟨by intro i hi; simp at hi; subst hi; exact ⟨by decide, by decide⟩,
    Or.inl (by decide), h.1, h.2⟩

end HiringAssistant

